import Mathlib

/-!
Verification of the MyTune backend (`server.py`): a shallow embedding of the
result-normalization and stream-selection core, together with theorems about
its behaviour.

Modelling conventions:
- A Python string is a `List Char` (named `Str` below).
- A Python dict field is a `Field α := Option (Option α)`:
  `none` means the key is absent, `some none` means the key is present with
  value `None`, `some (some v)` means the key holds the value `v`.
- A raised Python exception is `Except.error` of a `PyErr`; a `try/except`
  block is a `match` that converts `Except.error` to the fail-soft value.
- The external yt-dlp provider is a function parameter producing
  `Except PyErr (Option _)`: it may raise, return `None`, or return data.
-/

namespace MyTune

/-- Python strings as lists of characters. -/
abbrev Str := List Char

/-- Python exceptions distinguished only by kind. -/
inductive PyErr where
  | typeError : PyErr
  | valueError : PyErr
  | providerError : PyErr
deriving DecidableEq, Repr

/-- A computation that may raise a Python exception. -/
abbrev Exc (α : Type) := Except PyErr α

/-- A dict entry: absent key, key with value `None`, or key with a value. -/
abbrev Field (α : Type) := Option (Option α)

/-- Python `d.get(k)`: `None` when the key is absent, else the stored value. -/
def pyGet {α : Type} (f : Field α) : Option α :=
  f.getD none

/-- Python `d.get(k, default)` with a non-`None` default value. -/
def pyGetD {α : Type} (f : Field α) (d : α) : Option α :=
  f.getD (some d)

/-- Require a non-`None` value; operating on `None` raises a `TypeError`. -/
def req {α : Type} : Option α → Exc α
  | none => .error .typeError
  | some v => .ok v

/-- Python truthiness of an optional string: `None` and `""` are falsy. -/
def truthyStr : Option Str → Bool
  | none => false
  | some s => decide (s ≠ [])

/-- Whitespace characters stripped by Python `str.strip()`. -/
def isPySpace (c : Char) : Bool :=
  c = ' ' || c = '\t' || c = '\n' || c = '\r' || c = Char.ofNat 11 || c = Char.ofNat 12

/-- Python `str.strip()`: drop whitespace from both ends. -/
def strip (s : Str) : Str :=
  ((s.dropWhile isPySpace).reverse.dropWhile isPySpace).reverse

/-- Split a string at the first occurrence of `sep`, when one exists
(`s.split(sep, 1)` when `sep in s`). -/
def splitOnce (sep : Str) : Str → Option (Str × Str)
  | [] => none
  | c :: rest =>
    if sep.isPrefixOf (c :: rest) then some ([], (c :: rest).drop sep.length)
    else
      match splitOnce sep rest with
      | none => none
      | some (l, r) => some (c :: l, r)

/-- A provider thumbnail candidate: the fields consumed by the code. -/
structure Thumb where
  url : Field Str
  width : Field Int
  height : Field Int
deriving DecidableEq, Repr

/-- The sort key of `_get_best_thumbnail`:
`x.get('width', 0) * x.get('height', 0)`.  Raises a `TypeError` when a key is
present with value `None`. -/
def area (t : Thumb) : Exc Int :=
  match req (pyGetD t.width 0) with
  | .error e => .error e
  | .ok w =>
    match req (pyGetD t.height 0) with
    | .error e => .error e
    | .ok h => .ok (w * h)

/-- Compute the sort key for every candidate, left to right, stopping at the
first raised exception (as CPython's `sorted` does with a `key` function). -/
def mapAreas : List Thumb → Exc (List (Thumb × Int))
  | [] => .ok []
  | t :: ts =>
    match area t with
    | .error e => .error e
    | .ok a =>
      match mapAreas ts with
      | .error e => .error e
      | .ok rest => .ok ((t, a) :: rest)

/-- Insert a keyed candidate into a descending list, before the first
strictly smaller key (stable: equal keys keep original order). -/
def insertByKey (x : Thumb × Int) : List (Thumb × Int) → List (Thumb × Int)
  | [] => [x]
  | y :: ys => if x.2 ≥ y.2 then x :: y :: ys else y :: insertByKey x ys

/-- Stable descending sort by key: `sorted(_, key=area, reverse=True)`. -/
def sortByKeyDesc : List (Thumb × Int) → List (Thumb × Int)
  | [] => []
  | x :: xs => insertByKey x (sortByKeyDesc xs)

/-- `_get_best_thumbnail(thumbnails)`.  The argument may be `None` (a null
`thumbnails` value passed through `entry.get('thumbnails', [])`), which is
falsy and yields the empty string.  Result `none` models a selected candidate
whose `url` key is present with value `None`. -/
def get_best_thumbnail (thumbnails : Option (List Thumb)) : Exc (Option Str) :=
  match thumbnails with
  | none => .ok (some [])
  | some [] => .ok (some [])
  | some ths =>
    match mapAreas ths with
    | .error e => .error e
    | .ok keyed =>
      match sortByKeyDesc keyed with
      | [] => .ok (some [])
      | best :: _ => .ok (pyGetD best.1.url [])

/-- A raw search entry: the fields consumed by the code. -/
structure Entry where
  id : Field Str
  title : Field Str
  uploader : Field Str
  duration : Field Int
  thumbnails : Field (List Thumb)
deriving DecidableEq, Repr

/-- Python truthiness of an entry dict, over the modelled keys. -/
def entryTruthy (e : Entry) : Bool :=
  e.id.isSome || e.title.isSome || e.uploader.isSome || e.duration.isSome ||
    e.thumbnails.isSome

/-- A normalized track record as built by `_format_track`. -/
structure Track where
  id : Str
  title : Str
  artist : Str
  duration : Option Int
  thumbnail : Option Str
  videoId : Str
deriving DecidableEq, Repr

/-- The title/artist delimiter `" - "`. -/
def sepChars : Str := (" - ").data

/-- Default title `"Unknown"`. -/
def unknownChars : Str := ("Unknown").data

/-- Default artist `"Unknown Artist"`. -/
def unknownArtistChars : Str := ("Unknown Artist").data

/-- The title/artist heuristic of `_format_track` (lines 142-149): split the
raw title on the first `" - "`; otherwise fall back to a truthy uploader;
otherwise `"Unknown Artist"`.  Returns `(title, artist)`. -/
def splitArtist (rawTitle : Str) (uploader : Option Str) : Str × Str :=
  match splitOnce sepChars rawTitle with
  | some (l, r) => (strip r, strip l)
  | none =>
    match uploader with
    | some u => if u = [] then (rawTitle, unknownArtistChars) else (rawTitle, u)
    | none => (rawTitle, unknownArtistChars)

/-- The body of `_format_track`, before its `except` clause. -/
def format_track_body (e : Entry) : Exc (Option Track) :=
  match pyGet e.id with
  | none => .ok none
  | some vid =>
    if vid = [] then .ok none
    else
      match pyGetD e.title unknownChars with
      | none => .error .typeError
      | some rawTitle =>
        let ta := splitArtist rawTitle (pyGet e.uploader)
        match get_best_thumbnail (pyGetD e.thumbnails []) with
        | .error err => .error err
        | .ok thumb =>
          .ok (some { id := vid, title := ta.1, artist := ta.2,
                      duration := pyGetD e.duration 0,
                      thumbnail := thumb, videoId := vid })

/-- `_format_track(entry)`: any exception in the body is caught and converted
to `None`. -/
def format_track (e : Entry) : Option Track :=
  match format_track_body e with
  | .ok t => t
  | .error _ => none

/-- A provider delivery format: the fields consumed by the code. -/
structure Format where
  acodec : Field Str
  vcodec : Field Str
  url : Field Str
deriving DecidableEq, Repr

/-- Python truthiness of a format dict, over the modelled keys. -/
def formatTruthy (f : Format) : Bool :=
  f.acodec.isSome || f.vcodec.isSome || f.url.isSome

/-- The string `"none"` used as codec sentinel. -/
def noneChars : Str := ("none").data

/-- The loop condition of `get_stream_url` (line 110):
`fmt.get('acodec') != 'none' and fmt.get('vcodec') == 'none'`. -/
def isAudioOnly (f : Format) : Bool :=
  decide (pyGet f.acodec ≠ some noneChars) && decide (pyGet f.vcodec = some noneChars)

/-- The `for fmt in formats: ... break` loop (lines 109-112): first format
satisfying the audio-only condition. -/
def selectFormat (formats : List Format) : Option Format :=
  formats.find? isAudioOnly

/-- The full selection of `get_stream_url` (lines 106-115): the loop result,
else the first format when the list is non-empty. -/
def chooseFormat (formats : List Format) : Option Format :=
  match selectFormat formats with
  | some f => some f
  | none => formats.head?

/-- Full metadata returned by the provider for a watch URL: the fields
consumed by the code. -/
structure Info where
  title : Field Str
  artist : Field Str
  uploader : Field Str
  duration : Field Int
  thumbnails : Field (List Thumb)
  formats : Field (List Format)
deriving DecidableEq, Repr

/-- Python truthiness of the metadata dict, over the modelled keys. -/
def infoTruthy (i : Info) : Bool :=
  i.title.isSome || i.artist.isSome || i.uploader.isSome || i.duration.isSome ||
    i.thumbnails.isSome || i.formats.isSome

/-- The resolved playable record built by `get_stream_url` (lines 120-127). -/
structure StreamInfo where
  streamUrl : Option Str
  title : Option Str
  artist : Option Str
  duration : Option Int
  thumbnail : Option Str
  videoId : Str
deriving DecidableEq, Repr

/-- The artist expression of `get_stream_url` (line 123):
`info.get('artist') or info.get('uploader', 'Unknown Artist')`. -/
def resolveArtist (artistF uploaderF : Field Str) : Option Str :=
  match pyGet artistF with
  | some a => if a = [] then pyGetD uploaderF unknownArtistChars else some a
  | none => pyGetD uploaderF unknownArtistChars

/-- The normalization of a truthy metadata dict by `get_stream_url`
(lines 101-127): format retrieval, selection, and record construction. -/
def streamCore (info : Info) (video_id : Str) : Exc (Option StreamInfo) :=
  if infoTruthy info then
    match pyGetD info.formats [] with
    | none => .error .typeError
    | some formats =>
      match chooseFormat formats with
      | none => .ok none
      | some af =>
        if formatTruthy af then
          match get_best_thumbnail (pyGetD info.thumbnails []) with
          | .error e => .error e
          | .ok thumb =>
            .ok (some { streamUrl := pyGet af.url,
                        title := pyGetD info.title unknownChars,
                        artist := resolveArtist info.artist info.uploader,
                        duration := pyGetD info.duration 0,
                        thumbnail := thumb,
                        videoId := video_id })
        else .ok none
  else .ok none

/-- The body of `get_stream_url` applied to the provider's response, before
the `except` clause (lines 99-127). -/
def streamBody : Exc (Option Info) → Str → Exc (Option StreamInfo)
  | .error e, _ => .error e
  | .ok none, _ => .ok none
  | .ok (some info), video_id => streamCore info video_id

/-- `get_stream_url` applied to the provider's response: exceptions, whether
raised by the provider or during normalization, are caught and converted to
`None` (lines 129-131). -/
def streamOfResp (resp : Exc (Option Info)) (video_id : Str) : Option StreamInfo :=
  match streamBody resp video_id with
  | .ok r => r
  | .error _ => none

/-- The raw result of the provider's flat search: the `entries` key. -/
structure SearchResult where
  entries : Field (List (Option Entry))
deriving DecidableEq, Repr

/-- The body of `search` applied to the provider's response, before the
`except` clause (lines 67-79). -/
def searchBody (resp : Exc (Option SearchResult)) : Exc (List Track) :=
  match resp with
  | .error e => .error e
  | .ok none => .ok []
  | .ok (some r) =>
    match r.entries with
    | none => .ok []
    | some none => .error .typeError
    | some (some entries) =>
      .ok (entries.filterMap (fun entry =>
        match entry with
        | none => none
        | some e => if entryTruthy e then format_track e else none))

/-- `search` applied to the provider's response: any exception is caught and
converted to the empty list (lines 81-83). -/
def searchOfResp (resp : Exc (Option SearchResult)) : List Track :=
  match searchBody resp with
  | .ok ts => ts
  | .error _ => []

/-- The yt-dlp options held by the service (the fields the core manipulates;
`default_search` is absent from the base options and set by `search`). -/
structure YdlOpts where
  format : Str
  quiet : Bool
  no_warnings : Bool
  extract_flat : Bool
  nocheckcertificate : Bool
  default_search : Option Str
deriving DecidableEq, Repr

/-- The options built in `__init__` (lines 26-45). -/
def initOpts : YdlOpts :=
  { format := ("bestaudio/best").data, quiet := true, no_warnings := true,
    extract_flat := false, nocheckcertificate := true, default_search := none }

/-- The single service instance: its only state is `self.ydl_opts`. -/
structure YouTubeService where
  ydl_opts : YdlOpts
deriving DecidableEq, Repr

/-- The module-level `youtube_service = YouTubeService()` instance. -/
def initService : YouTubeService := { ydl_opts := initOpts }

/-- The search options derived per call (lines 59-63). -/
def searchOpts (o : YdlOpts) : YdlOpts :=
  { o with extract_flat := true, default_search := some (("ytsearch").data) }

/-- Decimal rendering of an integer, for f-string interpolation. -/
def intToStr (n : Int) : Str := (toString n).data

/-- The f-string `f"ytsearch\x7bmax_results\x7d:\x7bquery\x7d"` (line 66). -/
def searchQuery (max_results : Int) (query : Str) : Str :=
  ("ytsearch").data ++ intToStr max_results ++ (":").data ++ query

/-- The f-string `f"https://www.youtube.com/watch?v=\x7bvideo_id\x7d"` (line 96). -/
def watchUrl (video_id : Str) : Str :=
  ("https://www.youtube.com/watch?v=").data ++ video_id

/-- A provider operation: given options and a query string, returns a raw
result, `None`, or raises. -/
abbrev SearchProvider := YdlOpts → Str → Exc (Option SearchResult)

/-- A provider operation for full metadata extraction. -/
abbrev InfoProvider := YdlOpts → Str → Exc (Option Info)

/-- The `search` method as a state transformer on the service object: it
reads `self.ydl_opts` and writes nothing back. -/
def search_method (svc : YouTubeService) (provider : SearchProvider)
    (query : Str) (max_results : Int) : List Track × YouTubeService :=
  (searchOfResp (provider (searchOpts svc.ydl_opts) (searchQuery max_results query)), svc)

/-- `YouTubeService.search(query, max_results)` (lines 47-83). -/
def search (svc : YouTubeService) (provider : SearchProvider)
    (query : Str) (max_results : Int) : List Track :=
  (search_method svc provider query max_results).1

/-- `YouTubeService.get_stream_url(video_id)` (lines 85-131). -/
def get_stream_url (svc : YouTubeService) (provider : InfoProvider)
    (video_id : Str) : Option StreamInfo :=
  streamOfResp (provider svc.ydl_opts (watchUrl video_id)) video_id

/-- Digit value of a character, if it is an ASCII digit. -/
def digitVal (c : Char) : Option Nat :=
  if '0' ≤ c ∧ c ≤ '9' then some (c.toNat - ('0').toNat) else none

/-- Parse a non-empty all-digit string to a natural number. -/
def parseDigits (s : Str) : Option Nat :=
  if s = [] then none
  else s.foldl (fun acc c => acc.bind (fun n => (digitVal c).map (fun d => n * 10 + d))) (some 0)

/-- Python `int(s)` on a string: surrounding whitespace, an optional sign and
decimal digits; anything else raises a `ValueError`.  (Underscore digit
separators and non-ASCII digits are not modelled.) -/
def pyInt (s : Str) : Exc Int :=
  match strip s with
  | '-' :: rest =>
    match parseDigits rest with
    | some n => .ok (-(n : Int))
    | none => .error .valueError
  | '+' :: rest =>
    match parseDigits rest with
    | some n => .ok (n : Int)
    | none => .error .valueError
  | t =>
    match parseDigits t with
    | some n => .ok (n : Int)
    | none => .error .valueError

/-- An HTTP response from the search route: a result page with its count and
status 200, or the 400 client error. -/
inductive Resp where
  | ok (results : List Track) (count : Nat) (status : Nat)
  | badRequest (error : Str) (status : Nat)
deriving DecidableEq, Repr

/-- The 400 error message `'Query parameter required'`. -/
def queryRequiredChars : Str := ("Query parameter required").data

/-- The `/api/search` route handler (lines 183-205).  `qArg` and `limitArg`
are the raw query parameters (absent or a string).  The handler reads `q`
with default `''`, converts `limit` with `int` (default `20`) — which raises
an uncaught `ValueError` on an unparseable value — then rejects an empty
query with a 400 before calling the service. -/
def search_route (svc : YouTubeService) (provider : SearchProvider)
    (qArg limitArg : Option Str) : Exc Resp :=
  let query := qArg.getD []
  match (match limitArg with
         | none => (.ok 20 : Exc Int)
         | some s => pyInt s) with
  | .error e => .error e
  | .ok limit =>
    if query = [] then .ok (.badRequest queryRequiredChars 400)
    else
      let results := search svc provider query limit
      .ok (.ok results results.length 200)

/-- A provider stub that always returns no data: used to instantiate
theorems at concrete inputs. -/
def constProvider : SearchProvider := fun _ _ => .ok none

/-- Well-formedness of a format in the spec's data model: the codec
indicators are present with non-`None` values. -/
def formatWF (f : Format) : Prop :=
  (pyGet f.acodec).isSome ∧ (pyGet f.vcodec).isSome

instance (f : Format) : Decidable (formatWF f) := by
  unfold formatWF
  infer_instance

/-- Modelled from the spec's words: a format whose audio-codec indicator is
not `"none"` and whose video-codec indicator is `"none"`. -/
def claimAudioOnly (f : Format) : Bool :=
  decide ((pyGet f.acodec).getD [] ≠ noneChars) &&
    decide ((pyGet f.vcodec).getD [] = noneChars)

/-- Well-formedness of a thumbnail in the spec's data model: no field is
present with value `None` (fields may be absent). -/
def thumbWF (t : Thumb) : Prop :=
  t.url ≠ some none ∧ t.width ≠ some none ∧ t.height ≠ some none

instance (t : Thumb) : Decidable (thumbWF t) := by
  unfold thumbWF
  infer_instance

/-- Modelled from the spec's words: `area = width * height`, missing
width/height treated as 0. -/
def areaSpec (t : Thumb) : Int :=
  (pyGetD t.width 0).getD 0 * (pyGetD t.height 0).getD 0

/-- The earliest keyed candidate with maximal key. -/
def firstMaxPair : List (Thumb × Int) → Option (Thumb × Int)
  | [] => none
  | x :: xs =>
    match firstMaxPair xs with
    | none => some x
    | some y => if y.2 > x.2 then some y else some x

/-- Modelled from the spec's words: the earliest candidate with maximal
area (first maximal element, stable tie-break). -/
def firstMaxBy (f : Thumb → Int) : List Thumb → Option Thumb
  | [] => none
  | x :: xs =>
    match firstMaxBy f xs with
    | none => some x
    | some y => if f y > f x then some y else some x

/-- A combined video format `{acodec: "none", vcodec: "h264", url: "v1"}`. -/
def fmtV1 : Format :=
  ⟨some (some ("none").data), some (some ("h264").data), some (some ("v1").data)⟩

/-- An audio-only format `{acodec: "aac", vcodec: "none", url: "a1"}`. -/
def fmtA1 : Format :=
  ⟨some (some ("aac").data), some (some ("none").data), some (some ("a1").data)⟩

/-- An audio-only format with no `url` key at all. -/
def fmtNoUrl : Format := ⟨some (some ("aac").data), some (some noneChars), none⟩

/-- Metadata whose only format is audio-only but carries no delivery URL. -/
def infoNoUrl : Info := ⟨none, none, none, none, none, some (some [fmtNoUrl])⟩

/-- Metadata with an empty format list. -/
def infoEmptyFormats : Info := ⟨none, none, none, none, none, some (some [])⟩

/-- Metadata with full artist data and one audio-only format. -/
def infoFull : Info :=
  ⟨some (some ("Song").data), some (some ("Artist X").data),
   some (some ("Uploader Y").data), some (some 200), none, some (some [fmtA1])⟩

/-- The stream record resolved from `infoFull`. -/
def streamFull : StreamInfo :=
  ⟨some ("a1").data, some ("Song").data, some ("Artist X").data, some 200,
   some [], ("vid").data⟩

/-- Thumbnail `{url: "a", width: 100, height: 100}`. -/
def thumbA : Thumb := ⟨some (some ("a").data), some (some 100), some (some 100)⟩

/-- Thumbnail `{url: "b", width: 200, height: 50}`. -/
def thumbB : Thumb := ⟨some (some ("b").data), some (some 200), some (some 50)⟩

/-- A thumbnail whose `width` key is present with value `None`. -/
def thumbWidthNull : Thumb := ⟨some (some ("u").data), some none, none⟩

/-- An entry with a valid id whose `title` key is present with value `None`. -/
def entryTitleNull : Entry := ⟨some (some ("id1").data), some none, none, none, none⟩

/-- An entry with a valid id and title whose thumbnail has a `None` width. -/
def entryWidthNull : Entry :=
  ⟨some (some ("id2").data), some (some ("T").data), none, none,
   some (some [thumbWidthNull])⟩

/-- An entry whose `id` key holds the empty string. -/
def entryEmptyId : Entry := ⟨some (some []), some (some ("T").data), none, none, none⟩

/-! Helper lemmas. -/

/-- `List.find?` only depends on the predicate's values on the list. -/
theorem find?_congr_on (p q : Format → Bool) (l : List Format)
    (h : ∀ x ∈ l, p x = q x) : l.find? p = l.find? q := by
  induction l with
  | nil => rfl
  | cons a t ih =>
    have ha := h a (List.mem_cons_self a t)
    cases hpa : p a with
    | true =>
      rw [List.find?_cons_of_pos _ hpa, List.find?_cons_of_pos _ (ha ▸ hpa)]
    | false =>
      rw [List.find?_cons_of_neg _ (by simp [hpa]), List.find?_cons_of_neg _ (by simp [← ha, hpa])]
      exact ih (fun x hx => h x (List.mem_cons_of_mem a hx))

/-- A successful `splitOnce` yields a decomposition around the separator. -/
theorem splitOnce_decomp (sep : Str) :
    ∀ (s l r : Str), splitOnce sep s = some (l, r) → s = l ++ sep ++ r := by
  intro s
  induction s with
  | nil => intro l r h; simp [splitOnce] at h
  | cons c rest ih =>
    intro l r h
    by_cases hp : sep.isPrefixOf (c :: rest)
    · rw [splitOnce, if_pos hp] at h
      obtain ⟨t, ht⟩ := List.isPrefixOf_iff_prefix.mp hp
      simp only [Option.some.injEq, Prod.mk.injEq] at h
      obtain ⟨hl, hr⟩ := h
      subst hl
      subst hr
      conv_lhs => rw [← ht]
      rw [← ht, List.drop_left]
      simp
    · rw [splitOnce, if_neg hp] at h
      cases hrec : splitOnce sep rest with
      | none => rw [hrec] at h; simp at h
      | some p =>
        obtain ⟨l0, r0⟩ := p
        rw [hrec] at h
        simp only [Option.some.injEq, Prod.mk.injEq] at h
        obtain ⟨hl, hr⟩ := h
        subst hl
        subst hr
        have := ih l0 r0 hrec
        simp [this]

/-- `splitOnce` splits at the first occurrence: any decomposition has the
separator at the found position or later. -/
theorem splitOnce_first (sep : Str) :
    ∀ (s l r : Str), splitOnce sep s = some (l, r) →
      ∀ l' r', s = l' ++ sep ++ r' → l.length ≤ l'.length := by
  intro s
  induction s with
  | nil => intro l r h; simp [splitOnce] at h
  | cons c rest ih =>
    intro l r h l' r' hdec
    by_cases hp : sep.isPrefixOf (c :: rest)
    · rw [splitOnce, if_pos hp] at h
      simp only [Option.some.injEq, Prod.mk.injEq] at h
      obtain ⟨hl, -⟩ := h
      subst hl
      simp
    · rw [splitOnce, if_neg hp] at h
      cases hrec : splitOnce sep rest with
      | none => rw [hrec] at h; simp at h
      | some p =>
        obtain ⟨l0, r0⟩ := p
        rw [hrec] at h
        simp only [Option.some.injEq, Prod.mk.injEq] at h
        obtain ⟨hl, -⟩ := h
        subst hl
        cases l' with
        | nil =>
          exfalso
          apply hp
          rw [List.isPrefixOf_iff_prefix]
          exact ⟨r', by simpa using hdec.symm⟩
        | cons c' l'' =>
          have hddec : rest = l'' ++ sep ++ r' := by
            have := hdec
            simp only [List.cons_append] at this
            exact (List.cons.injEq _ _ _ _ ▸ this).2
          have := ih l0 r0 hrec l'' r' hddec
          simpa using this

/-- When `splitOnce` finds nothing, the separator does not occur. -/
theorem splitOnce_none (sep : Str) (hsep : sep ≠ []) :
    ∀ (s : Str), splitOnce sep s = none → ∀ l r, s ≠ l ++ sep ++ r := by
  intro s
  induction s with
  | nil =>
    intro _ l r hdec
    have h0 : l ++ sep ++ r = [] := hdec.symm
    rcases List.append_eq_nil.mp h0 with ⟨h1, -⟩
    rcases List.append_eq_nil.mp h1 with ⟨-, h2⟩
    exact hsep h2
  | cons c rest ih =>
    intro h l r hdec
    rw [splitOnce] at h
    by_cases hp : sep.isPrefixOf (c :: rest)
    · rw [if_pos hp] at h; simp at h
    · rw [if_neg hp] at h
      cases hrec : splitOnce sep rest with
      | some p => rw [hrec] at h; obtain ⟨a, b⟩ := p; simp at h
      | none =>
        cases l with
        | nil =>
          apply hp
          rw [List.isPrefixOf_iff_prefix]
          exact ⟨r, by simpa using hdec.symm⟩
        | cons c' l'' =>
          have hddec : rest = l'' ++ sep ++ r := by
            have := hdec
            simp only [List.cons_append] at this
            exact (List.cons.injEq _ _ _ _ ▸ this).2
          exact ih hrec l'' r hddec

/-- On a well-formed thumbnail the sort key computes without raising. -/
theorem area_wf (t : Thumb) (h : thumbWF t) : area t = .ok (areaSpec t) := by
  obtain ⟨-, hw, hh⟩ := h
  have hw' : pyGetD t.width 0 = some ((pyGetD t.width 0).getD 0) := by
    rcases hW : t.width with _ | w
    · rfl
    · rcases w with _ | wv
      · exact absurd hW hw
      · rfl
  have hh' : pyGetD t.height 0 = some ((pyGetD t.height 0).getD 0) := by
    rcases hH : t.height with _ | hv
    · rfl
    · rcases hv with _ | hv'
      · exact absurd hH hh
      · rfl
  rw [area, hw', hh']
  simp [req, areaSpec]

/-- On well-formed thumbnails the keyed list computes without raising. -/
theorem mapAreas_wf :
    ∀ (l : List Thumb), (∀ t ∈ l, thumbWF t) →
      mapAreas l = .ok (l.map (fun t => (t, areaSpec t))) := by
  intro l
  induction l with
  | nil => intro _; rfl
  | cons x xs ih =>
    intro hwf
    rw [mapAreas, area_wf x (hwf x (List.mem_cons_self x xs)),
      ih (fun t ht => hwf t (List.mem_cons_of_mem x ht))]
    simp

/-- The head after inserting `x` is `x` when its key beats the old head. -/
theorem head_insertByKey (x : Thumb × Int) (s : List (Thumb × Int)) :
    (insertByKey x s).head? =
      some (match s.head? with
            | none => x
            | some y => if x.2 ≥ y.2 then x else y) := by
  cases s with
  | nil => rfl
  | cons y ys =>
    by_cases h : x.2 ≥ y.2 <;> simp [insertByKey, h]

/-- The head of the stable descending sort is the earliest maximal pair. -/
theorem head_sortByKeyDesc :
    ∀ (l : List (Thumb × Int)), (sortByKeyDesc l).head? = firstMaxPair l := by
  intro l
  induction l with
  | nil => rfl
  | cons x xs ih =>
    rw [sortByKeyDesc, head_insertByKey, ih]
    cases hm : firstMaxPair xs with
    | none => simp [firstMaxPair, hm]
    | some y =>
      simp only [firstMaxPair, hm]
      by_cases h : x.2 ≥ y.2
      · rw [if_pos h, if_neg (by omega)]
      · rw [if_neg h, if_pos (by omega)]

/-- Keying commutes with taking the earliest maximal element. -/
theorem firstMaxPair_map (f : Thumb → Int) :
    ∀ (l : List Thumb),
      firstMaxPair (l.map (fun t => (t, f t))) =
        (firstMaxBy f l).map (fun t => (t, f t)) := by
  intro l
  induction l with
  | nil => rfl
  | cons x xs ih =>
    simp only [List.map_cons, firstMaxPair, firstMaxBy, ih]
    cases hm : firstMaxBy f xs with
    | none => simp
    | some y =>
      by_cases h : f y > f x <;> simp [h]

/-- The earliest maximal element belongs to the list. -/
theorem firstMaxBy_mem (f : Thumb → Int) :
    ∀ (l : List Thumb) (b : Thumb), firstMaxBy f l = some b → b ∈ l := by
  intro l
  induction l with
  | nil => intro b h; simp [firstMaxBy] at h
  | cons x xs ih =>
    intro b h
    rw [firstMaxBy] at h
    cases hm : firstMaxBy f xs with
    | none => rw [hm] at h; simp at h; simp [h]
    | some y =>
      rw [hm] at h
      by_cases hc : f y > f x
      · simp only [hc, if_true] at h
        simp only [Option.some.injEq] at h
        exact List.mem_cons_of_mem x (ih b (h ▸ hm))
      · simp only [hc, if_false] at h
        simp only [Option.some.injEq] at h
        simp [← h]

/-- A track built by `_format_track` carries the entry's non-empty id. -/
theorem format_track_some_id (e : Entry) (t : Track)
    (h : format_track e = some t) :
    ∃ s, pyGet e.id = some s ∧ s ≠ [] ∧ t.id = s := by
  unfold format_track at h
  cases hb : format_track_body e with
  | error err => rw [hb] at h; simp at h
  | ok v =>
    rw [hb] at h
    have hv : v = some t := h
    unfold format_track_body at hb
    split at hb
    · injection hb with hb'
      rw [← hb'] at hv
      simp at hv
    · rename_i vid heq
      split at hb
      · injection hb with hb'
        rw [← hb'] at hv
        simp at hv
      · rename_i hvne
        split at hb
        · exact absurd hb (by simp)
        · split at hb
          · exact absurd hb (by simp)
          · injection hb with hb'
            rw [← hb'] at hv
            injection hv with hv'
            exact ⟨vid, heq, hvne, by rw [← hv']⟩

/-- `_format_track` drops an entry whose id is absent, `None` or empty. -/
theorem format_track_bad_id (e : Entry)
    (h : pyGet e.id = none ∨ pyGet e.id = some []) : format_track e = none := by
  rcases h with h | h
  · simp [format_track, format_track_body, h]
  · simp [format_track, format_track_body, h]

/-- A stream record built from metadata `info` carries the artist computed
by the `or`-fallback chain. -/
theorem streamOfResp_artist (info : Info) (vid : Str) (r : StreamInfo)
    (h : streamOfResp (.ok (some info)) vid = some r) :
    r.artist = resolveArtist info.artist info.uploader := by
  cases hb : streamBody (.ok (some info)) vid with
  | error e => unfold streamOfResp at h; rw [hb] at h; simp at h
  | ok v =>
    unfold streamOfResp at h
    rw [hb] at h
    have hv : v = some r := h
    have hb' : streamCore info vid = .ok v := hb
    unfold streamCore at hb'
    split at hb'
    · split at hb'
      · exact absurd hb' (by simp)
      · split at hb'
        · injection hb' with hb''
          rw [← hb''] at hv
          simp at hv
        · split at hb'
          · split at hb'
            · exact absurd hb' (by simp)
            · injection hb' with hb''
              rw [← hb''] at hv
              injection hv with hv'
              rw [← hv']
          · injection hb' with hb''
            rw [← hb''] at hv
            simp at hv
    · injection hb' with hb''
      rw [← hb''] at hv
      simp at hv

/-- A member with an unreadable area key makes the keying raise. -/
theorem mapAreas_error_of_mem :
    ∀ (l : List Thumb) (t : Thumb), t ∈ l → area t = .error .typeError →
      ∃ e, mapAreas l = .error e := by
  intro l
  induction l with
  | nil => intro t ht; simp at ht
  | cons x xs ih =>
    intro t ht ha
    rcases List.mem_cons.mp ht with rfl | hmem
    · exact ⟨.typeError, by simp [mapAreas, ha]⟩
    · cases hax : area x with
      | error e => exact ⟨e, by simp [mapAreas, hax]⟩
      | ok a =>
        obtain ⟨e, he⟩ := ih t hmem ha
        exact ⟨e, by simp [mapAreas, hax, he]⟩

/-- A candidate whose `width` key holds `None` makes the selector raise. -/
theorem get_best_thumbnail_error (ths : List Thumb) (t : Thumb)
    (hmem : t ∈ ths) (hw : t.width = some none) :
    ∃ e, get_best_thumbnail (some ths) = .error e := by
  obtain ⟨x, xs, rfl⟩ :=
    List.exists_cons_of_ne_nil (List.ne_nil_of_mem hmem)
  have harea : area t = .error .typeError := by
    simp [area, hw, pyGetD, req]
  obtain ⟨e, he⟩ := mapAreas_error_of_mem _ t hmem harea
  exact ⟨e, by simp [get_best_thumbnail, he]⟩

/-! Claim theorems. -/

/-- C3: any exception raised by the provider call is caught at the component
boundary: `search` returns the empty list and `get_stream_url` returns
`None`; neither propagates the exception. -/
theorem provider_exception_fail_soft (err : PyErr) (svc : YouTubeService)
    (q vid : Str) (n : Int) :
    search svc (fun _ _ => .error err) q n = [] ∧
    get_stream_url svc (fun _ _ => .error err) vid = none :=
  ⟨rfl, rfl⟩

/-- C8: `search` is a deterministic function of its inputs and the provider's
response: the service object's state is read but never written, so a second
call with identical inputs yields an identical output. -/
theorem search_idempotent (svc svc' : YouTubeService) (provider : SearchProvider)
    (q : Str) (n : Int) (h : svc.ydl_opts = svc'.ydl_opts) :
    search svc provider q n = search svc' provider q n ∧
    (search_method svc provider q n).2 = svc ∧
    search ((search_method svc provider q n).2) provider q n =
      search svc provider q n := by
  refine ⟨?_, rfl, rfl⟩
  simp [search, search_method, h]

/-- C8 witness: two calls on the module-level service instance agree. -/
theorem search_idempotent_witness :
    search initService constProvider ("music").data 20 =
      search initService constProvider ("music").data 20 ∧
    (search_method initService constProvider ("music").data 20).2 = initService ∧
    search ((search_method initService constProvider ("music").data 20).2)
        constProvider ("music").data 20 =
      search initService constProvider ("music").data 20 :=
  search_idempotent initService initService constProvider ("music").data 20 rfl

/-- C1 counterexample: metadata whose only format is audio-only but has no
`url` key.  `get_stream_url` returns a present record whose `streamUrl` is
`None` — a partial record, contradicting the claim that the operation fails
whenever the selected format lacks a delivery URL. -/
theorem stream_url_null_record_counterexample :
    (get_stream_url initService (fun _ _ => .ok (some infoNoUrl)) ("vid").data).isSome
      = true ∧
    Option.map StreamInfo.streamUrl
        (get_stream_url initService (fun _ _ => .ok (some infoNoUrl)) ("vid").data)
      = some none :=
  ⟨rfl, rfl⟩

/-- C1 amended: when the format list is empty the result is absent, but when
the selection picks a truthy format that merely lacks a delivery URL, the
operation succeeds with a record whose `streamUrl` is `None`. -/
theorem stream_url_absent_on_empty_formats (info : Info) (vid : Str)
    (fmts : List Format) (hf : pyGetD info.formats [] = some fmts) :
    (fmts = [] → streamOfResp (.ok (some info)) vid = none) ∧
    (∀ af tv, chooseFormat fmts = some af → formatTruthy af = true →
      pyGet af.url = none →
      get_best_thumbnail (pyGetD info.thumbnails []) = .ok tv →
      ∃ r, streamOfResp (.ok (some info)) vid = some r ∧ r.streamUrl = none) := by
  constructor
  · intro hempty
    subst hempty
    by_cases hi : infoTruthy info
    · simp [streamOfResp, streamBody, streamCore, hi, hf, chooseFormat, selectFormat]
    · simp [streamOfResp, streamBody, streamCore, hi]
  · intro af tv hch htr hurl hthumb
    have hne : fmts ≠ [] := by
      intro hempty
      rw [hempty] at hch
      simp [chooseFormat, selectFormat] at hch
    have hform : info.formats = some (some fmts) := by
      cases hff : info.formats with
      | none =>
        rw [hff] at hf
        simp [pyGetD] at hf
        exact absurd hf hne
      | some v =>
        cases v with
        | none => rw [hff] at hf; simp [pyGetD] at hf
        | some w => rw [hff] at hf; simp [pyGetD] at hf; rw [hf]
    have hi : infoTruthy info = true := by simp [infoTruthy, hform]
    have hres : streamOfResp (.ok (some info)) vid =
        some { streamUrl := pyGet af.url,
               title := pyGetD info.title unknownChars,
               artist := resolveArtist info.artist info.uploader,
               duration := pyGetD info.duration 0,
               thumbnail := tv, videoId := vid } := by
      simp [streamOfResp, streamBody, streamCore, hi, hf, hch, htr, hthumb]
    exact ⟨_, hres, by simp [hurl]⟩

/-- C1 amended witness: empty format list gives an absent result; the
no-URL format gives a present record with a `None` stream URL. -/
theorem stream_url_absent_on_empty_formats_witness :
    streamOfResp (.ok (some infoEmptyFormats)) ("vid").data = none ∧
    ∃ r, streamOfResp (.ok (some infoNoUrl)) ("vid").data = some r ∧
      r.streamUrl = none :=
  ⟨(stream_url_absent_on_empty_formats infoEmptyFormats ("vid").data [] rfl).1 rfl,
   (stream_url_absent_on_empty_formats infoNoUrl ("vid").data [fmtNoUrl] rfl).2
     fmtNoUrl (some []) rfl rfl rfl rfl⟩

/-- C2: on a non-empty format list, the selection takes the first format
whose audio-codec indicator is not `"none"` and whose video-codec indicator
is `"none"`, else the first format in the list. -/
theorem format_selection_first_audio_only (f : Format) (fs : List Format)
    (hwf : ∀ g ∈ f :: fs, formatWF g) :
    chooseFormat (f :: fs) =
      some (match (f :: fs).find? claimAudioOnly with
            | some g => g
            | none => f) := by
  have hpq : ∀ g ∈ f :: fs, isAudioOnly g = claimAudioOnly g := by
    intro g hg
    rcases hwf g hg with ⟨ha, hv⟩
    rcases hA : pyGet g.acodec with _ | a
    · rw [hA] at ha; simp at ha
    · rcases hV : pyGet g.vcodec with _ | v
      · rw [hV] at hv; simp at hv
      · simp [isAudioOnly, claimAudioOnly, hA, hV]
  unfold chooseFormat selectFormat
  rw [find?_congr_on _ _ _ hpq]
  cases hF : (f :: fs).find? claimAudioOnly with
  | none => simp
  | some g => simp

/-- C2 witness: among a video format then an audio-only format, the
audio-only one is selected; a lone video format is selected as fallback. -/
theorem format_selection_first_audio_only_witness :
    chooseFormat [fmtV1, fmtA1] = some fmtA1 ∧
    chooseFormat [fmtV1] = some fmtV1 := by
  constructor
  · have h := format_selection_first_audio_only fmtV1 [fmtA1] (by decide)
    simpa using h
  · have h := format_selection_first_audio_only fmtV1 [] (by decide)
    simpa using h

/-- C7 counterexample: with the query parameter missing and the limit
parameter unparseable, the route raises an uncaught `ValueError` instead of
defaulting the limit to 20 or signalling the client error. -/
theorem route_unparseable_limit_counterexample :
    search_route initService constProvider none (some ("abc").data) =
      .error .valueError :=
  rfl

/-- C7 amended: the limit defaults to 20 only when the parameter is absent;
a present but unparseable limit raises an uncaught `ValueError` before the
query check, so the missing-query client error is signalled only when the
limit parses (or is absent). -/
theorem route_limit_default_and_parse (svc : YouTubeService)
    (provider : SearchProvider) (qArg limitArg : Option Str) :
    (limitArg = none →
      search_route svc provider qArg none =
        (if qArg.getD [] = [] then .ok (.badRequest queryRequiredChars 400)
         else .ok (.ok (search svc provider (qArg.getD []) 20)
                       (search svc provider (qArg.getD []) 20).length 200))) ∧
    (∀ s e, limitArg = some s → pyInt s = .error e →
      search_route svc provider qArg limitArg = .error e) ∧
    (∀ s v, limitArg = some s → pyInt s = .ok v →
      search_route svc provider qArg limitArg =
        (if qArg.getD [] = [] then .ok (.badRequest queryRequiredChars 400)
         else .ok (.ok (search svc provider (qArg.getD []) v)
                       (search svc provider (qArg.getD []) v).length 200))) := by
  refine ⟨fun _ => rfl, ?_, ?_⟩
  · intro s e hs he
    subst hs
    simp [search_route, he]
  · intro s v hs hv
    subst hs
    simp [search_route, hv]

/-- C7 amended witness: a well-formed query with an unparseable limit still
raises `ValueError`; an absent limit with a missing query yields the 400. -/
theorem route_limit_default_and_parse_witness :
    search_route initService constProvider (some ("music").data)
        (some ("abc").data) = .error .valueError ∧
    search_route initService constProvider none none =
      .ok (.badRequest queryRequiredChars 400) := by
  constructor
  · exact (route_limit_default_and_parse initService constProvider
      (some ("music").data) (some ("abc").data)).2.1 ("abc").data .valueError rfl rfl
  · have h := (route_limit_default_and_parse initService constProvider
      none none).1 rfl
    simpa using h

/-- C4: the thumbnail selector returns the empty string on an empty list;
otherwise the URL (or empty string when the key is absent) of the earliest
candidate with maximal `width * height` area; on the spec's tie example it
picks `"a"`. -/
theorem best_thumbnail_first_max (l : List Thumb) :
    (l = [] → get_best_thumbnail (some l) = .ok (some [])) ∧
    ((∀ t ∈ l, thumbWF t) → ∀ b, firstMaxBy areaSpec l = some b →
      get_best_thumbnail (some l) = .ok (some ((pyGet b.url).getD []))) ∧
    get_best_thumbnail (some [thumbA, thumbB]) = .ok (some ("a").data) := by
  refine ⟨?_, ?_, rfl⟩
  · intro h
    subst h
    rfl
  · intro hwf b hb
    have hne : l ≠ [] := by
      intro h
      rw [h] at hb
      simp [firstMaxBy] at hb
    obtain ⟨x, xs, rfl⟩ := List.exists_cons_of_ne_nil hne
    have hmem : b ∈ x :: xs := firstMaxBy_mem areaSpec _ b hb
    have hhead : (sortByKeyDesc ((x :: xs).map (fun t => (t, areaSpec t)))).head? =
        some (b, areaSpec b) := by
      rw [head_sortByKeyDesc, firstMaxPair_map, hb]
      rfl
    obtain ⟨tl, htl⟩ : ∃ tl,
        sortByKeyDesc ((x :: xs).map (fun t => (t, areaSpec t))) =
          (b, areaSpec b) :: tl := by
      cases hS : sortByKeyDesc ((x :: xs).map (fun t => (t, areaSpec t))) with
      | nil => rw [hS] at hhead; simp at hhead
      | cons p tl =>
        rw [hS] at hhead
        simp only [List.head?_cons, Option.some.injEq] at hhead
        exact ⟨tl, by rw [hhead]⟩
    have hurl : pyGetD b.url [] = some ((pyGet b.url).getD []) := by
      obtain ⟨hu, -, -⟩ := hwf b hmem
      rcases hU : b.url with _ | u
      · rfl
      · rcases u with _ | uv
        · exact absurd hU hu
        · rfl
    rw [show get_best_thumbnail (some (x :: xs)) =
        (match mapAreas (x :: xs) with
         | .error e => .error e
         | .ok keyed =>
           match sortByKeyDesc keyed with
           | [] => .ok (some [])
           | best :: _ => .ok (pyGetD best.1.url [])) from rfl]
    simp only [mapAreas_wf _ hwf]
    rw [htl]
    show (Except.ok (pyGetD b.url []) : Exc (Option Str)) =
      .ok (some ((pyGet b.url).getD []))
    rw [hurl]

/-- C4 witness: the tie example `[{url:a,100,100},{url:b,200,50}]` picks
`"a"` through the general characterization. -/
theorem best_thumbnail_first_max_witness :
    get_best_thumbnail (some [thumbA, thumbB]) = .ok (some ((pyGet thumbA.url).getD [])) :=
  (best_thumbnail_first_max [thumbA, thumbB]).2.1 (by decide) thumbA rfl

/-- C5: the splitter splits the raw title at the first `" - "` into trimmed
artist and title, ignoring the uploader; with no occurrence it uses a
present non-empty uploader, else `"Unknown Artist"`; `"A - B - C"` splits
into artist `"A"` and title `"B - C"`. -/
theorem title_artist_split (raw : Str) (uploader : Option Str) :
    ((∃ l r, raw = l ++ sepChars ++ r) →
      ∃ l r, raw = l ++ sepChars ++ r ∧
        (∀ l' r', raw = l' ++ sepChars ++ r' → l.length ≤ l'.length) ∧
        splitArtist raw uploader = (strip r, strip l)) ∧
    ((∀ l r, raw ≠ l ++ sepChars ++ r) → ∀ u, uploader = some u → u ≠ [] →
      splitArtist raw uploader = (raw, u)) ∧
    ((∀ l r, raw ≠ l ++ sepChars ++ r) → (uploader = none ∨ uploader = some []) →
      splitArtist raw uploader = (raw, unknownArtistChars)) ∧
    splitArtist ("A - B - C").data none = (("B - C").data, ("A").data) := by
  refine ⟨?_, ?_, ?_, by decide⟩
  · rintro ⟨l, r, hdec⟩
    cases hso : splitOnce sepChars raw with
    | none => exact absurd hdec (splitOnce_none sepChars (by decide) raw hso l r)
    | some p =>
      obtain ⟨l0, r0⟩ := p
      exact ⟨l0, r0, splitOnce_decomp _ _ _ _ hso,
        splitOnce_first _ _ _ _ hso, by simp [splitArtist, hso]⟩
  · intro hno u hu hne
    cases hso : splitOnce sepChars raw with
    | some p =>
      obtain ⟨l0, r0⟩ := p
      exact absurd (splitOnce_decomp _ _ _ _ hso) (hno l0 r0)
    | none => simp [splitArtist, hso, hu, hne]
  · intro hno hup
    cases hso : splitOnce sepChars raw with
    | some p =>
      obtain ⟨l0, r0⟩ := p
      exact absurd (splitOnce_decomp _ _ _ _ hso) (hno l0 r0)
    | none =>
      rcases hup with h | h <;> simp [splitArtist, hso, h]

/-- C5 witness: a title without the delimiter and a non-empty uploader. -/
theorem title_artist_split_witness :
    splitArtist ("Just A Title").data (some ("SomeUploader").data) =
      (("Just A Title").data, ("SomeUploader").data) :=
  (title_artist_split ("Just A Title").data (some ("SomeUploader").data)).2.1
    (splitOnce_none sepChars (by decide) ("Just A Title").data rfl)
    ("SomeUploader").data rfl (by decide)

/-- C6: every track emitted by `search` has a non-empty id equal to the
entry's identifier; entries that are absent or lack a non-empty identifier
produce no track. -/
theorem track_id_invariant :
    (∀ (e : Entry) (t : Track), format_track e = some t →
      ∃ s, pyGet e.id = some s ∧ s ≠ [] ∧ t.id = s) ∧
    (∀ (e : Entry), (pyGet e.id = none ∨ pyGet e.id = some []) →
      format_track e = none) ∧
    (∀ (svc : YouTubeService) (provider : SearchProvider) (q : Str) (n : Int)
      (t : Track), t ∈ search svc provider q n → t.id ≠ []) := by
  refine ⟨format_track_some_id, format_track_bad_id, ?_⟩
  intro svc provider q n t ht
  unfold search search_method at ht
  simp only at ht
  cases hresp : provider (searchOpts svc.ydl_opts) (searchQuery n q) with
  | error e => rw [hresp] at ht; simp [searchOfResp, searchBody] at ht
  | ok o =>
    rw [hresp] at ht
    cases o with
    | none => simp [searchOfResp, searchBody] at ht
    | some r =>
      cases hE : r.entries with
      | none => simp [searchOfResp, searchBody, hE] at ht
      | some oEntries =>
        cases oEntries with
        | none => simp [searchOfResp, searchBody, hE] at ht
        | some entries =>
          simp only [searchOfResp, searchBody, hE] at ht
          obtain ⟨entry, -, hsome⟩ := List.mem_filterMap.mp ht
          cases entry with
          | none => simp at hsome
          | some e =>
            simp only at hsome
            by_cases htru : entryTruthy e
            · rw [if_pos htru] at hsome
              obtain ⟨s, -, hs, hid⟩ := format_track_some_id e t hsome
              rw [hid]
              exact hs
            · rw [if_neg htru] at hsome
              simp at hsome

/-- C6 witness: an entry whose id is the empty string yields no track. -/
theorem track_id_invariant_witness : format_track entryEmptyId = none :=
  track_id_invariant.2.1 entryEmptyId (Or.inr rfl)

/-- C9: the artist of a resolved stream record is the metadata's artist when
present and non-empty; else the uploader value whenever the uploader key is
present (even empty or null); else `"Unknown Artist"`. -/
theorem stream_artist_fallback (info : Info) (vid : Str) (r : StreamInfo)
    (h : get_stream_url initService (fun _ _ => .ok (some info)) vid = some r) :
    (∀ a, pyGet info.artist = some a → a ≠ [] → r.artist = some a) ∧
    (∀ v, (pyGet info.artist = none ∨ pyGet info.artist = some []) →
      info.uploader = some v → r.artist = v) ∧
    ((pyGet info.artist = none ∨ pyGet info.artist = some []) →
      info.uploader = none → r.artist = some unknownArtistChars) := by
  have ha : r.artist = resolveArtist info.artist info.uploader :=
    streamOfResp_artist info vid r h
  refine ⟨?_, ?_, ?_⟩
  · intro a hA hne
    rw [ha]
    unfold resolveArtist
    rw [hA]
    simp [hne]
  · intro v hA hU
    rw [ha]
    unfold resolveArtist
    rcases hA with hA | hA <;> rw [hA] <;> simp [pyGetD, hU]
  · intro hA hU
    rw [ha]
    unfold resolveArtist
    rcases hA with hA | hA <;> rw [hA] <;> simp [pyGetD, hU]

/-- C9 witness: full metadata resolves with the artist field. -/
theorem stream_artist_fallback_witness :
    streamFull.artist = some ("Artist X").data :=
  (stream_artist_fallback infoFull ("vid").data streamFull rfl).1
    ("Artist X").data rfl (by decide)

/-- C10: defaults apply only to absent keys — an entry with a valid id whose
title (or a thumbnail's width) is present with value `None` makes
`_format_track` raise internally; the exception is caught and the entry is
silently dropped from search results. -/
theorem null_valued_fields_drop_entry (e : Entry) (vid : Str)
    (hid : pyGet e.id = some vid) (hvid : vid ≠ []) :
    (e.title = some none →
      format_track_body e = .error .typeError ∧ format_track e = none) ∧
    (∀ ths t, pyGetD e.thumbnails [] = some ths → t ∈ ths →
      t.width = some none →
      (∃ rawTitle, pyGetD e.title unknownChars = some rawTitle) →
      (∃ err, format_track_body e = .error err) ∧ format_track e = none) ∧
    (format_track e = none → entryTruthy e = true →
      searchOfResp (.ok (some ⟨some (some [some e])⟩)) = []) := by
  refine ⟨?_, ?_, ?_⟩
  · intro ht
    have htitle : pyGetD e.title unknownChars = none := by simp [pyGetD, ht]
    have hbody : format_track_body e = .error .typeError := by
      unfold format_track_body
      simp only [hid]
      rw [if_neg hvid, htitle]
    exact ⟨hbody, by simp [format_track, hbody]⟩
  · rintro ths t hths hmem hw ⟨rawTitle, hraw⟩
    obtain ⟨err, herr⟩ := get_best_thumbnail_error ths t hmem hw
    have hbody : format_track_body e = .error err := by
      unfold format_track_body
      simp only [hid]
      rw [if_neg hvid, hraw, hths, herr]
    exact ⟨⟨err, hbody⟩, by simp [format_track, hbody]⟩
  · intro hnone htru
    simp [searchOfResp, searchBody, htru, hnone]

/-- C10 witness: a null title and a null thumbnail width each drop the
entry. -/
theorem null_valued_fields_drop_entry_witness :
    format_track entryTitleNull = none ∧ format_track entryWidthNull = none :=
  ⟨((null_valued_fields_drop_entry entryTitleNull ("id1").data rfl
      (by decide)).1 rfl).2,
   ((null_valued_fields_drop_entry entryWidthNull ("id2").data rfl
      (by decide)).2.1 [thumbWidthNull] thumbWidthNull rfl
      (List.mem_singleton.mpr rfl) rfl ⟨("T").data, rfl⟩).2⟩

end MyTune
